import Mathlib

/-!
Verification of the SEO domain checker (src/hsc.py) against its
specification. The Python program is shallowly embedded: Python string
operations are modelled as character-list functions, the HTTP transport
is an explicit parameter recording the response (or exception) for each
HEAD/GET request, and the thread-pool completion order of
check_platform_links is an explicit permutation parameter.
-/

namespace Hsc

/-! ## Python string primitives (character-list models of str methods) -/

/-- Model of Python str.strip: remove leading and trailing whitespace. -/
def pyStrip (s : String) : String :=
  String.mk (((s.data.dropWhile Char.isWhitespace).reverse.dropWhile Char.isWhitespace).reverse)

/-- Model of Python str.lower (ASCII letters, as used by the program). -/
def pyLower (s : String) : String :=
  String.mk (s.data.map Char.toLower)

/-- Model of Python s.startswith(p). -/
def pyStartsWith (s p : String) : Bool :=
  p.data.isPrefixOf s.data

/-- Model of the Python membership test c in s for a single character. -/
def pyContains (s : String) (c : Char) : Bool :=
  s.data.contains c

/-- Model of Python s.split(sep)[0] for a one-character separator:
everything before the first occurrence of the separator. -/
def pyBeforeColon (s : String) : String :=
  String.mk (s.data.takeWhile (fun c => !(c == ':')))

/-- Model of Python s[1:]: drop the first character. -/
def pyDropOne (s : String) : String :=
  String.mk (s.data.drop 1)

/-- Model of Python s.replace with the triple-backtick pattern and an empty
replacement: remove non-overlapping triple-backtick runs left to right. -/
def stripTicksAux : List Char → List Char
  | '\x60' :: '\x60' :: '\x60' :: rest => stripTicksAux rest
  | c :: rest => c :: stripTicksAux rest
  | [] => []

/-- String wrapper of stripTicksAux. -/
def stripTicks (s : String) : String :=
  String.mk (stripTicksAux s.data)

/-! ## Liveness checker (check_url, lines 23-49 of hsc.py) -/

/-- HTTP request kind issued by the probe. -/
inductive Method where
  | head
  | get
deriving DecidableEq, Repr

/-- Result of one HTTP request: a response with a status code, or a raised
exception (timeout, DNS failure, connection refused, TLS error, ...). -/
inductive Outcome where
  | status (code : Nat)
  | exc
deriving DecidableEq, Repr

/-- Whether an outcome counts as a success (a response below 400). -/
def Outcome.ok : Outcome → Bool
  | .status c => c < 400
  | .exc => false

/-- The network transport: what each HEAD and each GET request returns.
The fixed timeout and User-Agent header of the program are constants
folded into the transport. -/
structure Transport where
  headResp : String → Outcome
  getResp : String → Outcome

/-- The guard of line 28: the URL is the sentinel (after strip/lower) or is
blank, so the probe returns Error without touching the network. -/
def isSkipped (url : String) : Bool :=
  pyLower (pyStrip url) == "unavailable" || pyStrip url == ""

/-- Lines 33-34: prepend the https scheme when no scheme is present. -/
def normalizeUrl (url : String) : String :=
  if pyStartsWith url "http://" || pyStartsWith url "https://" then url
  else "https://" ++ url

/-- check_url (lines 23-49): returns the (possibly rewritten) url and the
activity flag, together with the trace of requests issued, in order. -/
def check_url (tr : Transport) (url : String) : (String × Bool) × List (Method × String) :=
  if isSkipped url then ((url, false), [])
  else
    let u := normalizeUrl url
    match tr.headResp u with
    | .exc => ((u, false), [(Method.head, u)])
    | .status c =>
      if 400 ≤ c then
        match tr.getResp u with
        | .exc => ((u, false), [(Method.head, u), (Method.get, u)])
        | .status c2 => ((u, decide (c2 < 400)), [(Method.head, u), (Method.get, u)])
      else ((u, decide (c < 400)), [(Method.head, u)])

/-- One entry of the result links list (lines 116-119). -/
structure LinkResult where
  url : String
  status : String
deriving DecidableEq, Repr

/-- The per-platform result record (lines 93-99). -/
structure PlatformResult where
  platform : String
  total : Nat
  active : Nat
  error : Nat
  links : List LinkResult
deriving DecidableEq, Repr

/-- Lines 107-119: account for one completed probe. -/
def processResult (r : PlatformResult) (p : String × Bool) : PlatformResult :=
  if p.2 then
    { r with active := r.active + 1, links := r.links ++ [⟨p.1, "active"⟩] }
  else
    { r with error := r.error + 1, links := r.links ++ [⟨p.1, "error"⟩] }

/-- check_platform_links (lines 89-122). The thread pool completes the
submitted probes in a nondeterministic order; the order parameter is that
completion order, a permutation of the input links. -/
def check_platform_links (tr : Transport) (platform : String) (links : List String)
    (order : List String) : PlatformResult :=
  order.foldl (fun r link => processResult r (check_url tr link).1)
    { platform := platform, total := links.length, active := 0, error := 0, links := [] }

/-! ## Input parser (parse_input_file, lines 51-87) -/

/-- A platform header line: contains a colon and does not start with >. -/
def isHeaderLine (line : String) : Bool :=
  pyContains line ':' && !(pyStartsWith line ">")

/-- A link line: starts with >. -/
def isLinkLine (line : String) : Bool :=
  pyStartsWith line ">"

/-- Line 69: the platform name of a header line. -/
def headerName (line : String) : String :=
  pyStrip (pyBeforeColon line)

/-- Line 76: extract the link text of a (stripped) link line. -/
def extractLink (line : String) : String :=
  pyStrip (stripTicks (pyStrip (pyDropOne line)))

/-- The insertion-ordered dictionary of platforms, as an association list
with unique keys (Python dict preserving insertion order). -/
def dictSet : List (String × List String) → String → List String → List (String × List String)
  | [], k, v => [(k, v)]
  | (k1, v1) :: rest, k, v =>
    if k1 = k then (k, v) :: rest else (k1, v1) :: dictSet rest k v

/-- Append one url to the entry of the given key (Python list append on
platforms[current]). -/
def dictAppend : List (String × List String) → String → String → List (String × List String)
  | [], _, _ => []
  | (k1, v1) :: rest, k, u =>
    if k1 = k then (k1, v1 ++ [u]) :: rest else (k1, v1) :: dictAppend rest k u

/-- Dictionary lookup. -/
def dictGet : List (String × List String) → String → Option (List String)
  | [], _ => none
  | (k1, v1) :: rest, k => if k1 = k then some v1 else dictGet rest k

/-- Parser state: the accumulated dictionary and the current platform. -/
structure ParseState where
  platforms : List (String × List String)
  current : Option String
deriving DecidableEq, Repr

/-- One iteration of the parser loop (lines 60-78). A link line is only
consumed when current_platform is truthy in Python, i.e. set and
non-empty. -/
def parseLine (st : ParseState) (raw : String) : ParseState :=
  let line := pyStrip raw
  if line == "" then st
  else if isHeaderLine line then
    { platforms := dictSet st.platforms (headerName line) [],
      current := some (headerName line) }
  else
    match st.current with
    | some cur =>
      if isLinkLine line && !(cur == "") then
        let link := extractLink line
        if link == "" then st
        else { st with platforms := dictAppend st.platforms cur link }
      else st
    | none => st

/-- parse_input_file (lines 51-80) on the successfully read list of lines. -/
def parse_input_file (lines : List String) : List (String × List String) :=
  (lines.foldl parseLine { platforms := [], current := none }).platforms

/-- The links a run of body lines (containing no header line) contributes
to the current platform: the extracted text of each link line, when that
text is non-empty. -/
def validLinks (body : List String) : List String :=
  body.filterMap (fun raw =>
    if isLinkLine (pyStrip raw) && !(extractLink (pyStrip raw) == "") then
      some (extractLink (pyStrip raw))
    else none)

/-! ## Reporter (display_results, lines 124-165) -/

/-- Round num/den to the nearest integer, ties to even (the rounding of
the one-decimal float format; real arithmetic is modelled as exact
rationals). -/
def roundHalfEven (num den : Nat) : Nat :=
  if den < 2 * (num % den) then num / den + 1
  else if 2 * (num % den) < den then num / den
  else if num / den % 2 == 0 then num / den
  else num / den + 1

/-- Model of the Python one-decimal format of active/total*100. -/
def formatPct1 (active total : Nat) : String :=
  Nat.repr (roundHalfEven (active * 1000) total / 10) ++ "." ++
    Nat.repr (roundHalfEven (active * 1000) total % 10)

/-- Line 164: the success-rate line of the summary. The conditional covers
the whole print argument, so a zero total prints the bare literal 0%. -/
def successRateLine (active total : Nat) : String :=
  if 0 < total then "Success Rate    : " ++ formatPct1 active total ++ "%"
  else "0%"

/-! ## Fatal input handling (lines 82-87 and 206-208) -/

/- Terminal color escapes (lines 15-21). -/
namespace Colors

def RED : String := "\x1b[91m"

def RESET : String := "\x1b[0m"

end Colors

/-- Why reading the input file failed. -/
inductive ReadError where
  | fileNotFound
  | other (msg : String)
deriving DecidableEq

/-- parse_input_file including its exception handlers (lines 58-87): the
file system is modelled by the Except argument; a read failure becomes a
printed message and exit code 1. -/
def parse_input_file_io (filename : String) (file : Except ReadError (List String)) :
    Except (String × Nat) (List (String × List String)) :=
  match file with
  | .ok lines => .ok (parse_input_file lines)
  | .error .fileNotFound =>
    .error (Colors.RED ++ "Error: File \x27" ++ filename ++ "\x27 tidak ditemukan!" ++ Colors.RESET, 1)
  | .error (.other e) =>
    .error (Colors.RED ++ "Error membaca file: " ++ e ++ Colors.RESET, 1)

/-- Outcome of the input stage of main: a fatal printed message with an
exit code, or the parsed platforms to proceed with. -/
inductive MainStage where
  | fatal (msg : String) (code : Nat)
  | proceed (platforms : List (String × List String))
deriving DecidableEq

/-- Lines 204-208 of main: parse the file, then treat an empty mapping as
fatal. -/
def mainInputStage (filename : String) (file : Except ReadError (List String)) : MainStage :=
  match parse_input_file_io filename file with
  | .error (msg, code) => .fatal msg code
  | .ok platforms =>
    if platforms.isEmpty then
      .fatal (Colors.RED ++ "Tidak ada data platform ditemukan!" ++ Colors.RESET) 1
    else .proceed platforms

/-! ## Concrete transports used as witnesses -/

/-- A transport whose every response is 200. -/
def trOk : Transport :=
  ⟨fun _ => .status 200, fun _ => .status 200⟩

/-- A transport rejecting HEAD with 404 but answering GET with 200. -/
def tr404 : Transport :=
  ⟨fun _ => .status 404, fun _ => .status 200⟩

/-- A transport raising an exception on every request. -/
def trExc : Transport :=
  ⟨fun _ => .exc, fun _ => .exc⟩

/-! ## Helper lemmas -/

theorem isPrefixOf_self_append (l t : List Char) : l.isPrefixOf (l ++ t) = true := by
  induction l with
  | nil => simp [List.isPrefixOf]
  | cons a as ih => simp [List.isPrefixOf, ih]

theorem pyStartsWith_append (p t : String) : pyStartsWith (p ++ t) p = true := by
  unfold pyStartsWith
  rw [String.data_append]
  exact isPrefixOf_self_append p.data t.data

/-- In every branch of check_url past the sentinel guard, the returned url
is the normalized one, the first request is a HEAD to it, and every
request targets it. -/
theorem check_url_shape (tr : Transport) (url : String) (hskip : isSkipped url = false) :
    (check_url tr url).1.1 = normalizeUrl url ∧
    (∃ rest, (check_url tr url).2 = (Method.head, normalizeUrl url) :: rest) ∧
    ∀ mu ∈ (check_url tr url).2, mu.2 = normalizeUrl url := by
  unfold check_url
  rw [hskip]
  simp only [Bool.false_eq_true, if_false]
  cases hh : tr.headResp (normalizeUrl url) with
  | exc => simp
  | status c =>
    by_cases hc : 400 ≤ c
    · cases hg : tr.getResp (normalizeUrl url) <;> simp [hc, hg]
    · simp [hc]

/-- Each processed probe adds one to exactly one of the two counters,
appends one link, and leaves the total untouched. -/
theorem processResult_step (r : PlatformResult) (p : String × Bool) :
    (processResult r p).active + (processResult r p).error = r.active + r.error + 1 ∧
    (processResult r p).total = r.total ∧
    (processResult r p).links.length = r.links.length + 1 := by
  unfold processResult
  by_cases hp : p.2 = true
  · rw [if_pos hp]; simp; omega
  · rw [if_neg hp]; simp; omega

/-- Folding a step function that counts one per element. -/
theorem foldl_counting (g : PlatformResult → String → PlatformResult)
    (hg : ∀ r s, (g r s).active + (g r s).error = r.active + r.error + 1 ∧
      (g r s).total = r.total ∧ (g r s).links.length = r.links.length + 1) :
    ∀ (order : List String) (init : PlatformResult),
      (order.foldl g init).active + (order.foldl g init).error
          = init.active + init.error + order.length ∧
      (order.foldl g init).total = init.total ∧
      (order.foldl g init).links.length = init.links.length + order.length := by
  intro order
  induction order with
  | nil => intro init; simp
  | cons a l ih =>
    intro init
    have h1 := hg init a
    have h2 := ih (g init a)
    simp only [List.foldl_cons, List.length_cons]
    refine ⟨?_, ?_, ?_⟩ <;> omega

theorem dictGet_dictSet_self (d : List (String × List String)) (k : String) (v : List String) :
    dictGet (dictSet d k v) k = some v := by
  induction d with
  | nil => simp [dictSet, dictGet]
  | cons p rest ih =>
    obtain ⟨k1, v1⟩ := p
    by_cases h : k1 = k
    · simp [dictSet, h, dictGet]
    · simp [dictSet, h, dictGet, ih]

theorem dictGet_dictSet_ne (d : List (String × List String)) (k k' : String) (v : List String)
    (h : k ≠ k') : dictGet (dictSet d k v) k' = dictGet d k' := by
  induction d with
  | nil => simp [dictSet, dictGet, h]
  | cons p rest ih =>
    obtain ⟨k1, v1⟩ := p
    by_cases h1 : k1 = k
    · subst h1
      simp [dictSet, dictGet, h]
    · simp [dictSet, h1, dictGet, ih]

theorem dictGet_dictAppend_self (d : List (String × List String)) (k : String) (u : String)
    (us : List String) (h : dictGet d k = some us) :
    dictGet (dictAppend d k u) k = some (us ++ [u]) := by
  induction d with
  | nil => simp [dictGet] at h
  | cons p rest ih =>
    obtain ⟨k1, v1⟩ := p
    by_cases h1 : k1 = k
    · subst h1
      simp [dictGet] at h
      simp [dictAppend, dictGet, h]
    · simp [dictGet, h1] at h
      simp [dictAppend, h1, dictGet, ih h]

theorem dictGet_dictAppend_ne (d : List (String × List String)) (k k' : String) (u : String)
    (h : k ≠ k') : dictGet (dictAppend d k u) k' = dictGet d k' := by
  induction d with
  | nil => simp [dictAppend]
  | cons p rest ih =>
    obtain ⟨k1, v1⟩ := p
    by_cases h1 : k1 = k
    · subst h1
      simp [dictAppend, dictGet, h]
    · simp [dictAppend, h1, dictGet, ih]

theorem dictGet_mem (d : List (String × List String)) (k : String) (us : List String)
    (h : dictGet d k = some us) : (k, us) ∈ d := by
  induction d with
  | nil => simp [dictGet] at h
  | cons p rest ih =>
    obtain ⟨k1, v1⟩ := p
    by_cases h1 : k1 = k
    · subst h1
      simp [dictGet] at h
      simp [h]
    · simp [dictGet, h1] at h
      simp [ih h]

theorem mem_dictSet (d : List (String × List String)) (k : String) (v : List String)
    (p : String × List String) (h : p ∈ dictSet d k v) : p ∈ d ∨ p = (k, v) := by
  induction d with
  | nil => simp [dictSet] at h; simp [h]
  | cons q rest ih =>
    obtain ⟨k1, v1⟩ := q
    by_cases h1 : k1 = k
    · subst h1
      simp [dictSet] at h
      rcases h with h | h
      · right; exact h
      · left; simp [h]
    · simp [dictSet, h1] at h
      rcases h with h | h
      · left; simp [h]
      · rcases ih h with h2 | h2
        · left; simp [h2]
        · right; exact h2

theorem mem_dictAppend (d : List (String × List String)) (k : String) (u : String)
    (p : String × List String) (h : p ∈ dictAppend d k u) :
    p ∈ d ∨ ∃ q, q ∈ d ∧ p = (q.1, q.2 ++ [u]) := by
  induction d with
  | nil => simp [dictAppend] at h
  | cons q0 rest ih =>
    obtain ⟨k1, v1⟩ := q0
    by_cases h1 : k1 = k
    · subst h1
      simp [dictAppend] at h
      rcases h with h | h
      · right; exact ⟨(k1, v1), by simp, by simp [h]⟩
      · left; simp [h]
    · simp [dictAppend, h1] at h
      rcases h with h | h
      · left; simp [h]
      · rcases ih h with h2 | ⟨q, hq, hpq⟩
        · left; simp [h2]
        · right; exact ⟨q, by simp [hq], hpq⟩

theorem parseLine_blank (st : ParseState) (raw : String)
    (hb : (pyStrip raw == "") = true) : parseLine st raw = st := by
  simp [parseLine, hb]

theorem parseLine_hdr (st : ParseState) (raw : String)
    (hh : isHeaderLine (pyStrip raw) = true) :
    parseLine st raw =
      { platforms := dictSet st.platforms (headerName (pyStrip raw)) [],
        current := some (headerName (pyStrip raw)) } := by
  have hb : (pyStrip raw == "") = false := by
    cases hbb : pyStrip raw == "" with
    | false => rfl
    | true =>
      have he : pyStrip raw = "" := eq_of_beq hbb
      rw [he] at hh
      exact absurd hh (by decide)
  simp [parseLine, hb, hh]

theorem parseLine_none (st : ParseState) (raw : String)
    (hh : isHeaderLine (pyStrip raw) = false) (hcur : st.current = none) :
    parseLine st raw = st := by
  by_cases hb : (pyStrip raw == "") = true
  · exact parseLine_blank st raw hb
  · simp at hb
    simp [parseLine, hb, hh, hcur]

theorem parseLine_link_skip (st : ParseState) (raw : String) (m : String)
    (hh : isHeaderLine (pyStrip raw) = false) (hcur : st.current = some m)
    (hcond : (isLinkLine (pyStrip raw) && !(m == "")) = false) :
    parseLine st raw = st := by
  by_cases hb : (pyStrip raw == "") = true
  · exact parseLine_blank st raw hb
  · simp at hb
    simp [parseLine, hb, hh, hcur, hcond]

theorem parseLine_link_empty (st : ParseState) (raw : String) (m : String)
    (hb : (pyStrip raw == "") = false)
    (hh : isHeaderLine (pyStrip raw) = false) (hcur : st.current = some m)
    (hcond : (isLinkLine (pyStrip raw) && !(m == "")) = true)
    (he : (extractLink (pyStrip raw) == "") = true) :
    parseLine st raw = st := by
  simp [parseLine, hb, hh, hcur, hcond, he]

theorem parseLine_link_add (st : ParseState) (raw : String) (m : String)
    (hb : (pyStrip raw == "") = false)
    (hh : isHeaderLine (pyStrip raw) = false) (hcur : st.current = some m)
    (hcond : (isLinkLine (pyStrip raw) && !(m == "")) = true)
    (he : (extractLink (pyStrip raw) == "") = false) :
    parseLine st raw =
      { st with platforms := dictAppend st.platforms m (extractLink (pyStrip raw)) } := by
  simp [parseLine, hb, hh, hcur, hcond, he]

/-- Folding the parser over a run of lines containing no header, while a
non-empty current platform is set, keeps that platform current and appends
exactly the non-empty extracted links. -/
theorem foldl_body (body : List String) :
    ∀ (st : ParseState) (n : String) (us : List String),
      st.current = some n → (n == "") = false →
      (∀ l ∈ body, isHeaderLine (pyStrip l) = false) →
      dictGet st.platforms n = some us →
      (body.foldl parseLine st).current = some n ∧
      dictGet (body.foldl parseLine st).platforms n = some (us ++ validLinks body) := by
  induction body with
  | nil =>
    intro st n us hcur hn _ hget
    simp [validLinks]
    exact ⟨hcur, hget⟩
  | cons raw rest ih =>
    intro st n us hcur hn hhdr hget
    have hh : isHeaderLine (pyStrip raw) = false := hhdr raw (by simp)
    have hrest : ∀ l ∈ rest, isHeaderLine (pyStrip l) = false :=
      fun l hl => hhdr l (by simp [hl])
    simp only [List.foldl_cons]
    cases hl : isLinkLine (pyStrip raw) with
    | false =>
      have hstep : parseLine st raw = st :=
        parseLine_link_skip st raw n hh hcur (by simp [hl])
      have hv : validLinks (raw :: rest) = validLinks rest := by
        simp [validLinks, hl]
      rw [hstep, hv]
      exact ih st n us hcur hn hrest hget
    | true =>
      have hb : (pyStrip raw == "") = false := by
        cases hbb : pyStrip raw == "" with
        | false => rfl
        | true =>
          have he : pyStrip raw = "" := eq_of_beq hbb
          rw [he] at hl
          exact absurd hl (by decide)
      cases he : extractLink (pyStrip raw) == "" with
      | true =>
        have hstep : parseLine st raw = st :=
          parseLine_link_empty st raw n hb hh hcur (by simp [hl, hn]) he
        have he' : extractLink (pyStrip raw) = "" := eq_of_beq he
        have hv : validLinks (raw :: rest) = validLinks rest := by
          simp [validLinks, hl, he']
        rw [hstep, hv]
        exact ih st n us hcur hn hrest hget
      | false =>
        have hstep := parseLine_link_add st raw n hb hh hcur (by simp [hl, hn]) he
        have he' : extractLink (pyStrip raw) ≠ "" := by
          intro hx
          rw [hx] at he
          simp at he
        have hv : validLinks (raw :: rest)
            = extractLink (pyStrip raw) :: validLinks rest := by
          simp [validLinks, hl, he']
        rw [hstep, hv]
        have hget2 : dictGet (dictAppend st.platforms n (extractLink (pyStrip raw))) n
            = some (us ++ [extractLink (pyStrip raw)]) :=
          dictGet_dictAppend_self _ _ _ _ hget
        have := ih { st with platforms := dictAppend st.platforms n (extractLink (pyStrip raw)) }
          n (us ++ [extractLink (pyStrip raw)]) hcur hn hrest hget2
        simpa using this

/-- Folding the parser over lines none of which is a header named n, while
the current platform is not n, leaves the entry of n untouched. -/
theorem foldl_other_platform (post : List String) :
    ∀ (st : ParseState) (n : String),
      (∀ l ∈ post, isHeaderLine (pyStrip l) = true → headerName (pyStrip l) ≠ n) →
      (∀ m, st.current = some m → m ≠ n) →
      dictGet (post.foldl parseLine st).platforms n = dictGet st.platforms n := by
  induction post with
  | nil => intro st n _ _; rfl
  | cons raw rest ih =>
    intro st n hnames hcur
    have hrest : ∀ l ∈ rest, isHeaderLine (pyStrip l) = true → headerName (pyStrip l) ≠ n :=
      fun l hl => hnames l (by simp [hl])
    simp only [List.foldl_cons]
    cases hh : isHeaderLine (pyStrip raw) with
    | true =>
      have hname : headerName (pyStrip raw) ≠ n := hnames raw (by simp) hh
      rw [parseLine_hdr st raw hh]
      rw [ih _ n hrest (by intro m hm; injection hm with hm2; exact hm2 ▸ hname)]
      exact dictGet_dictSet_ne _ _ _ _ hname
    | false =>
      cases hcurv : st.current with
      | none =>
        rw [parseLine_none st raw hh hcurv]
        exact ih st n hrest hcur
      | some m =>
        have hm : m ≠ n := hcur m hcurv
        cases hcond : isLinkLine (pyStrip raw) && !(m == "") with
        | false =>
          rw [parseLine_link_skip st raw m hh hcurv hcond]
          exact ih st n hrest hcur
        | true =>
          have hb : (pyStrip raw == "") = false := by
            cases hbb : pyStrip raw == "" with
            | false => rfl
            | true =>
              have he0 : pyStrip raw = "" := eq_of_beq hbb
              rw [he0] at hcond
              have hfalse : isLinkLine ("" : String) = false := by decide
              rw [hfalse] at hcond
              simp at hcond
          cases he : extractLink (pyStrip raw) == "" with
          | true =>
            rw [parseLine_link_empty st raw m hb hh hcurv hcond he]
            exact ih st n hrest hcur
          | false =>
            rw [parseLine_link_add st raw m hb hh hcurv hcond he]
            have hinv : ∀ m2, ({ st with
                platforms := dictAppend st.platforms m (extractLink (pyStrip raw)) } :
                  ParseState).current = some m2 → m2 ≠ n := by
              intro m2 hm2
              have hm2' : st.current = some m2 := hm2
              rw [hcurv] at hm2'
              injection hm2' with hm3
              rw [← hm3]
              exact hm
            rw [ih _ n hrest hinv]
            exact dictGet_dictAppend_ne _ _ _ _ hm

/-- One parser step preserves the invariant that every stored url is
non-empty. -/
theorem parseLine_urls_nonempty (st : ParseState) (raw : String)
    (h : ∀ p ∈ st.platforms, ∀ u ∈ p.2, u ≠ "") :
    ∀ p ∈ (parseLine st raw).platforms, ∀ u ∈ p.2, u ≠ "" := by
  cases hb : pyStrip raw == "" with
  | true =>
    rw [parseLine_blank st raw hb]
    exact h
  | false =>
    cases hh : isHeaderLine (pyStrip raw) with
    | true =>
      rw [parseLine_hdr st raw hh]
      intro p hp u hu
      rcases mem_dictSet _ _ _ _ hp with hp2 | hp2
      · exact h p hp2 u hu
      · rw [hp2] at hu
        simp at hu
    | false =>
      cases hcurv : st.current with
      | none =>
        rw [parseLine_none st raw hh hcurv]
        exact h
      | some m =>
        cases hcond : isLinkLine (pyStrip raw) && !(m == "") with
        | false =>
          rw [parseLine_link_skip st raw m hh hcurv hcond]
          exact h
        | true =>
          cases he : extractLink (pyStrip raw) == "" with
          | true =>
            rw [parseLine_link_empty st raw m hb hh hcurv hcond he]
            exact h
          | false =>
            rw [parseLine_link_add st raw m hb hh hcurv hcond he]
            intro p hp u hu
            have he' : extractLink (pyStrip raw) ≠ "" := by
              intro hx
              rw [hx] at he
              simp at he
            rcases mem_dictAppend _ _ _ _ hp with hp2 | ⟨q, hq, hpq⟩
            · exact h p hp2 u hu
            · rw [hpq] at hu
              simp at hu
              rcases hu with hu | hu
              · exact h q hq u hu
              · rw [hu]
                exact he'

/-- The non-empty-url invariant holds of every parser fold. -/
theorem foldl_urls_nonempty (lines : List String) :
    ∀ (st : ParseState), (∀ p ∈ st.platforms, ∀ u ∈ p.2, u ≠ "") →
      ∀ p ∈ (lines.foldl parseLine st).platforms, ∀ u ∈ p.2, u ≠ "" := by
  induction lines with
  | nil => intro st h; simpa using h
  | cons raw rest ih =>
    intro st h
    simp only [List.foldl_cons]
    exact ih _ (parseLine_urls_nonempty st raw h)

/-- A concatenation with a non-empty left part is non-empty. -/
theorem append_ne_empty_left (s t : String) (hs : s ≠ "") : s ++ t ≠ "" := by
  intro hemp
  apply hs
  have h2 := congrArg String.data hemp
  rw [String.data_append] at h2
  have h3 := List.append_eq_nil.mp h2
  exact String.ext h3.1

/-! ## Claim theorems -/

/-- C1: for every platform name, every list of URLs and every completion
order of the concurrent probes, the PlatformResult of check_platform_links
satisfies active + error = total = length of the input list, and the
links list has that same length. -/
theorem check_platform_links_counts (tr : Transport) (platform : String)
    (links order : List String) (hperm : order.Perm links) :
    (check_platform_links tr platform links order).active
        + (check_platform_links tr platform links order).error
      = (check_platform_links tr platform links order).total ∧
    (check_platform_links tr platform links order).total = links.length ∧
    (check_platform_links tr platform links order).links.length = links.length := by
  unfold check_platform_links
  have h := foldl_counting (fun r link => processResult r (check_url tr link).1)
    (fun r s => processResult_step r ((check_url tr s).1)) order
    { platform := platform, total := links.length, active := 0, error := 0, links := [] }
  have hlen := hperm.length_eq
  refine ⟨?_, ?_, ?_⟩ <;> simp at h <;> omega

/-- Witness for C1 at a concrete transport, link list and completion
order. -/
theorem check_platform_links_counts_w :
    (List.Perm ["unavailable", "a.com"] ["a.com", "unavailable"]) ∧
    (check_platform_links trOk "Youtube" ["a.com", "unavailable"] ["unavailable", "a.com"]).active
        + (check_platform_links trOk "Youtube" ["a.com", "unavailable"] ["unavailable", "a.com"]).error
      = (check_platform_links trOk "Youtube" ["a.com", "unavailable"] ["unavailable", "a.com"]).total :=
  ⟨by decide,
   (check_platform_links_counts trOk "Youtube" ["a.com", "unavailable"]
     ["unavailable", "a.com"] (by decide)).1⟩

/-- C2: for a non-empty, non-sentinel URL whose HEAD request yields a
response with status c, the probe issues that HEAD first, issues a GET to
the same URL exactly when c is at least 400, and classifies Active exactly
when the final outcome (the GET outcome if the fallback ran, the HEAD
status otherwise) is a response below 400. -/
theorem check_url_head_then_get (tr : Transport) (url : String) (c : Nat)
    (hskip : isSkipped url = false)
    (hh : tr.headResp (normalizeUrl url) = Outcome.status c) :
    (check_url tr url).2 =
      (Method.head, normalizeUrl url)
        :: (if 400 ≤ c then [(Method.get, normalizeUrl url)] else []) ∧
    (check_url tr url).1.2 =
      Outcome.ok (if 400 ≤ c then tr.getResp (normalizeUrl url) else Outcome.status c) := by
  unfold check_url
  rw [hskip]
  simp only [Bool.false_eq_true, if_false, hh]
  by_cases hc : 400 ≤ c
  · cases hg : tr.getResp (normalizeUrl url) <;> simp [hc, hg, Outcome.ok]
  · simp [hc, Outcome.ok]

/-- Witness for C2: HEAD answers 404, the GET fallback answers 200, and
the final classification is Active. -/
theorem check_url_head_then_get_w :
    isSkipped "foo.example" = false ∧
    tr404.headResp (normalizeUrl "foo.example") = Outcome.status 404 ∧
    (check_url tr404 "foo.example").1.2 = true ∧
    (check_url tr404 "foo.example").2 =
      [(Method.head, "https://foo.example"), (Method.get, "https://foo.example")] :=
  ⟨by decide, by decide,
   by
    have h := (check_url_head_then_get tr404 "foo.example" 404 (by decide) rfl).2
    exact h.trans (by decide),
   by
    have h := (check_url_head_then_get tr404 "foo.example" 404 (by decide) rfl).1
    exact h.trans (by decide)⟩

/-- C3: an input that is empty after trimming, or equals the sentinel
unavailable after trimming and lowercasing, is classified Error with an
empty request trace: no HEAD and no GET is issued, for any transport. -/
theorem check_url_sentinel_skipped (tr : Transport) (url : String)
    (h : pyStrip url = "" ∨ pyLower (pyStrip url) = "unavailable") :
    check_url tr url = ((url, false), []) := by
  have hs : isSkipped url = true := by
    unfold isSkipped
    rcases h with h | h <;> simp [h]
  simp [check_url, hs]

/-- Witness for C3 on the sentinel in mixed case with surrounding
whitespace. -/
theorem check_url_sentinel_skipped_w :
    (pyStrip " UnAvailable " = "" ∨ pyLower (pyStrip " UnAvailable ") = "unavailable") ∧
    check_url trOk " UnAvailable " = ((" UnAvailable ", false), []) :=
  ⟨Or.inr (by decide),
   check_url_sentinel_skipped trOk " UnAvailable " (Or.inr (by decide))⟩

/-- C4: a non-skipped URL without an http or https scheme is probed with
https prepended: the stored url is the prepended form, the first issued
request is a HEAD to the prepended form, and every issued request targets
the prepended form; this holds for every transport, so also on the
exception path. -/
theorem check_url_prepends_https (tr : Transport) (url : String)
    (hskip : isSkipped url = false)
    (h1 : pyStartsWith url "http://" = false)
    (h2 : pyStartsWith url "https://" = false) :
    (check_url tr url).1.1 = "https://" ++ url ∧
    (∃ rest, (check_url tr url).2 = (Method.head, "https://" ++ url) :: rest) ∧
    ∀ mu ∈ (check_url tr url).2, mu.2 = "https://" ++ url := by
  have hn : normalizeUrl url = "https://" ++ url := by
    simp [normalizeUrl, h1, h2]
  have h := check_url_shape tr url hskip
  rw [hn] at h
  exact h

/-- Witness for C4 on a scheme-less URL, with the exception transport so
the exception path is the one exercised. -/
theorem check_url_prepends_https_w :
    isSkipped "example.org" = false ∧
    pyStartsWith "example.org" "http://" = false ∧
    pyStartsWith "example.org" "https://" = false ∧
    (check_url trExc "example.org").1.1 = "https://" ++ "example.org" :=
  ⟨by decide, by decide, by decide,
   (check_url_prepends_https trExc "example.org" (by decide) (by decide) (by decide)).1⟩

/-- C5 counterexample: probing the sentinel string produces a LinkResult
whose stored url is the unchanged input, which starts with neither
http nor https, refuting the claim that every LinkResult url is
protocol-prefixed. -/
theorem linkresult_url_unprefixed_cex :
    (check_platform_links trOk "Medium" ["unavailable"] ["unavailable"]).links =
      [⟨"unavailable", "error"⟩] ∧
    (pyStartsWith "unavailable" "http://" || pyStartsWith "unavailable" "https://") = false :=
  ⟨by decide, by decide⟩

/-- C5 amended: every LinkResult produced for a URL that is non-empty and
not the sentinel after trimming has a protocol-prefixed url. -/
theorem check_url_result_protocol_prefixed (tr : Transport) (url : String)
    (hskip : isSkipped url = false) :
    (pyStartsWith (check_url tr url).1.1 "http://"
      || pyStartsWith (check_url tr url).1.1 "https://") = true := by
  have h := (check_url_shape tr url hskip).1
  rw [h]
  unfold normalizeUrl
  by_cases hp : (pyStartsWith url "http://" || pyStartsWith url "https://") = true
  · rw [if_pos hp]
    exact hp
  · rw [if_neg hp]
    have hs : pyStartsWith ("https://" ++ url) "https://" = true :=
      pyStartsWith_append "https://" url
    simp [hs]

/-- Witness for the amended C5 on a scheme-less non-sentinel URL. -/
theorem check_url_result_protocol_prefixed_w :
    isSkipped "example.net" = false ∧
    (pyStartsWith (check_url trOk "example.net").1.1 "http://"
      || pyStartsWith (check_url trOk "example.net").1.1 "https://") = true :=
  ⟨by decide, check_url_result_protocol_prefixed trOk "example.net" (by decide)⟩

/-- C6: check_url is a total function of the transport behavior, and an
exception raised by the HEAD request, or by the GET fallback after a HEAD
response of 400 or more, is absorbed: the probe returns the Error
classification instead of propagating the failure. -/
theorem check_url_absorbs_exceptions (tr : Transport) (url : String)
    (hskip : isSkipped url = false) :
    (tr.headResp (normalizeUrl url) = Outcome.exc →
      check_url tr url =
        ((normalizeUrl url, false), [(Method.head, normalizeUrl url)])) ∧
    (∀ c, tr.headResp (normalizeUrl url) = Outcome.status c → 400 ≤ c →
      tr.getResp (normalizeUrl url) = Outcome.exc →
      check_url tr url =
        ((normalizeUrl url, false),
          [(Method.head, normalizeUrl url), (Method.get, normalizeUrl url)])) := by
  constructor
  · intro he
    simp [check_url, hskip, he]
  · intro c hc h4 hg
    simp [check_url, hskip, hc, h4, hg]

/-- Witness for C6: a transport that raises on every request yields the
Error classification for a well-formed URL. -/
theorem check_url_absorbs_exceptions_w :
    isSkipped "example.com" = false ∧
    check_url trExc "example.com" =
      (("https://example.com", false), [(Method.head, "https://example.com")]) :=
  ⟨by decide,
   by
    have h := (check_url_absorbs_exceptions trExc "example.com" (by decide)).1 rfl
    exact h.trans (by decide)⟩

/-- C7 counterexample: after the header A : 1, exactly one line starts
with the angle bracket, yet the stored url list of A is empty, because
the content of that line is empty once the leading marker, whitespace and
triple backticks are stripped. -/
theorem parse_link_count_cex :
    dictGet (parse_input_file ["A : 1", "> ```"]) "A" = some [] ∧
    (List.filter (fun l => isLinkLine (pyStrip l)) ["> ```"]).length = 1 :=
  ⟨by decide, by decide⟩

/-- C7 amended: for a platform header with a non-empty name that is not
reused by a later header, the stored url list is exactly the extracted
content of the link lines between the header and the next header whose
content is non-empty after stripping; its length is therefore the count of
those non-empty link lines, not of all link lines. -/
theorem parse_platform_link_count (pre body post : List String) (h : String)
    (hhdr : isHeaderLine (pyStrip h) = true)
    (hname : (headerName (pyStrip h) == "") = false)
    (hbody : ∀ l ∈ body, isHeaderLine (pyStrip l) = false)
    (hpost : post = [] ∨ ∃ p ps, post = p :: ps ∧ isHeaderLine (pyStrip p) = true)
    (hpostname : ∀ l ∈ post, isHeaderLine (pyStrip l) = true →
      headerName (pyStrip l) ≠ headerName (pyStrip h)) :
    dictGet (parse_input_file (pre ++ h :: (body ++ post))) (headerName (pyStrip h))
      = some (validLinks body) := by
  unfold parse_input_file
  rw [List.foldl_append, List.foldl_cons, parseLine_hdr _ _ hhdr, List.foldl_append]
  have hstep := foldl_body body
    { platforms :=
        dictSet (List.foldl parseLine { platforms := [], current := none } pre).platforms
          (headerName (pyStrip h)) [],
      current := some (headerName (pyStrip h)) }
    (headerName (pyStrip h)) [] rfl hname hbody (dictGet_dictSet_self _ _ _)
  rcases hpost with rfl | ⟨p, ps, rfl, hp⟩
  · simpa using hstep.2
  · rw [List.foldl_cons, parseLine_hdr _ _ hp]
    have hpn : headerName (pyStrip p) ≠ headerName (pyStrip h) := hpostname p (by simp) hp
    have hps : ∀ l ∈ ps, isHeaderLine (pyStrip l) = true →
        headerName (pyStrip l) ≠ headerName (pyStrip h) :=
      fun l hl => hpostname l (by simp [hl])
    rw [foldl_other_platform ps _ _ hps
      (by intro m hm; injection hm with hm2; exact hm2 ▸ hpn)]
    rw [dictGet_dictSet_ne _ _ _ _ hpn]
    simpa using hstep.2

/-- Witness for the amended C7 on a concrete file with a valid link, an
empty-content link line and a junk line in the body, and a later header. -/
theorem parse_platform_link_count_w :
    isHeaderLine (pyStrip "Youtube : 2") = true ∧
    dictGet
      (parse_input_file
        (["intro text"] ++ "Youtube : 2"
          :: (["> ```a.com```", "> ```", "junk line"] ++ ["Medium : 1", "> m.com"])))
      (headerName (pyStrip "Youtube : 2"))
      = some (validLinks ["> ```a.com```", "> ```", "junk line"]) :=
  ⟨by decide,
   parse_platform_link_count ["intro text"] ["> ```a.com```", "> ```", "junk line"]
     ["Medium : 1", "> m.com"] "Youtube : 2" (by decide) (by decide) (by decide)
     (Or.inr ⟨"Medium : 1", ["> m.com"], rfl, by decide⟩) (by decide)⟩

/-- C8: the summary success-rate line prints the bare literal 0% when the
aggregate total is zero (the branch performs no division), and otherwise
prints active/total x 100 rounded to exactly one decimal digit; 7 active
of 10 total prints 70.0 percent. -/
theorem success_rate_format (active total : Nat) :
    (total = 0 → successRateLine active total = "0%") ∧
    (0 < total → ∃ i d, d < 10 ∧
      successRateLine active total =
        "Success Rate    : " ++ Nat.repr i ++ "." ++ Nat.repr d ++ "%") ∧
    (active = 7 → total = 10 → successRateLine active total = "Success Rate    : 70.0%") := by
  refine ⟨?_, ?_, ?_⟩
  · intro h
    simp [successRateLine, h]
  · intro h
    refine ⟨roundHalfEven (active * 1000) total / 10,
      roundHalfEven (active * 1000) total % 10, Nat.mod_lt _ (by norm_num), ?_⟩
    simp [successRateLine, h, formatPct1, String.append_assoc]
  · intro h7 h10
    subst h7
    subst h10
    decide

/-- Witness for C8 at the two concrete totals named by the claim. -/
theorem success_rate_format_w :
    successRateLine 7 10 = "Success Rate    : 70.0%" ∧ successRateLine 0 0 = "0%" :=
  ⟨(success_rate_format 7 10).2.2 rfl rfl, (success_rate_format 0 0).1 rfl⟩

/-- C9: a missing or unreadable input file makes the run exit with code 1
after a non-empty printed message, and so does a successfully read file
whose parse yields zero platforms. -/
theorem main_fatal_inputs (filename : String) (file : Except ReadError (List String)) :
    (∀ e, file = Except.error e →
      ∃ msg, mainInputStage filename file = MainStage.fatal msg 1 ∧ msg ≠ "") ∧
    (∀ lines, file = Except.ok lines → parse_input_file lines = [] →
      ∃ msg, mainInputStage filename file = MainStage.fatal msg 1 ∧ msg ≠ "") := by
  constructor
  · intro e he
    subst he
    cases e with
    | fileNotFound =>
      exact ⟨Colors.RED ++ "Error: File \x27" ++ filename ++ "\x27 tidak ditemukan!"
          ++ Colors.RESET, rfl,
        append_ne_empty_left _ _ (append_ne_empty_left _ _ (append_ne_empty_left _ _
          (append_ne_empty_left _ _ (by decide))))⟩
    | other m =>
      exact ⟨Colors.RED ++ "Error membaca file: " ++ m ++ Colors.RESET, rfl,
        append_ne_empty_left _ _ (append_ne_empty_left _ _
          (append_ne_empty_left _ _ (by decide)))⟩
  · intro lines hl hempty
    subst hl
    refine ⟨Colors.RED ++ "Tidak ada data platform ditemukan!" ++ Colors.RESET, ?_,
      append_ne_empty_left _ _ (append_ne_empty_left _ _ (by decide))⟩
    simp [mainInputStage, parse_input_file_io, hempty]

/-- Witness for C9 on a missing file. -/
theorem main_fatal_inputs_w :
    ∃ msg, mainInputStage "data.txt" (Except.error ReadError.fileNotFound)
      = MainStage.fatal msg 1 ∧ msg ≠ "" :=
  (main_fatal_inputs "data.txt" (Except.error ReadError.fileNotFound)).1
    ReadError.fileNotFound rfl

/-- C10: every url stored by the parser is non-empty, so the empty-string
branch of the checker is never reached on parser output. -/
theorem parse_urls_nonempty (lines : List String) (n : String) (us : List String)
    (hget : dictGet (parse_input_file lines) n = some us) :
    ∀ u ∈ us, u ≠ "" := by
  unfold parse_input_file at hget
  have hmem := dictGet_mem _ _ _ hget
  have hall := foldl_urls_nonempty lines { platforms := [], current := none } (by simp)
  exact fun u hu => hall _ hmem u hu

/-- Witness for C10 on a concrete parsed file. -/
theorem parse_urls_nonempty_w :
    dictGet (parse_input_file ["A : 1", "> x"]) "A" = some ["x"] ∧ ("x" : String) ≠ "" :=
  ⟨by decide,
   parse_urls_nonempty ["A : 1", "> x"] "A" ["x"] (by decide) "x" (by decide)⟩

end Hsc
